import Mathlib

/-!
Shallow embedding of the Wing_mate campaign data pipeline
(`src/app/core/data_parser.py`, `src/app/core/data_processor.py`,
`src/app/core/batch_repository.py`,
`src/app/application/personnel_resolution_service.py`) and proofs about it.

Python strings are modelled as `List Char` (`PyStr`); parsed JSON values as
the inductive `Json` (JSON numbers are modelled as integers — no claim under
verification involves a fractional literal).  Python's per-character
`str.lower`/`str.upper`/`str.strip` are modelled character-wise over the
ASCII range used by the data.
-/

/-- A Python string. -/
abbrev PyStr := List Char

/-- ASCII decimal digit test, modelling `str.isdigit` for the ASCII range. -/
def isDigitChar (c : Char) : Bool := 48 ≤ c.toNat && c.toNat ≤ 57

/-- Python `str.isdigit()` on a whole string: non-empty and all digits. -/
def pyIsDigit (s : PyStr) : Bool := !s.isEmpty && s.all isDigitChar

/-- Python whitespace for `str.strip()` (ASCII subset: space, tab, LF, CR, VT, FF). -/
def isPyWhite (c : Char) : Bool :=
  c = ' ' || c = '\t' || c = '\n' || c = '\r' || c = '\x0b' || c = '\x0c'

/-- Python `str.strip()`. -/
def pyStrip (s : PyStr) : PyStr :=
  ((s.dropWhile isPyWhite).reverse.dropWhile isPyWhite).reverse

/-- Python `str.lower()` (character-wise). -/
def pyLower (s : PyStr) : PyStr := s.map Char.toLower

/-- Python `str.upper()` (character-wise). -/
def pyUpper (s : PyStr) : PyStr := s.map Char.toUpper

/-- Python `needle in hay` substring test. -/
def pyIn (needle : PyStr) : PyStr → Bool
  | [] => needle.isEmpty
  | c :: t => needle.isPrefixOf (c :: t) || pyIn needle t

/-- Python `s.startswith(pre)`. -/
def pyStartsWith (s pre : PyStr) : Bool := pre.isPrefixOf s

/-- Python `s.endswith(suf)`. -/
def pyEndsWith (s suf : PyStr) : Bool := suf.reverse.isPrefixOf s.reverse

/-- Value of a digit string (used for `int(s)` on strings accepted by `isdigit`). -/
def digitsToNat (s : PyStr) : Nat := s.foldl (fun acc c => acc * 10 + (c.toNat - 48)) 0

/-- A parsed JSON value as produced by Python's `json` module
(numbers restricted to integers; objects keep insertion order like a dict). -/
inductive Json where
  | null
  | bool (b : Bool)
  | num (n : Int)
  | str (s : PyStr)
  | arr (elems : List Json)
  | obj (fields : List (PyStr × Json))

/-- Dict lookup on an object's field list (`d[k]` / `d.get(k)`); keys are unique
in dicts produced by `json.loads`, so the first hit is the binding. -/
def jLookup (fields : List (PyStr × Json)) (k : PyStr) : Option Json :=
  (fields.find? (fun kv => kv.1 == k)).map (·.2)

/-- `payload.get(k, dflt)` on a JSON object. -/
def jGetD (fields : List (PyStr × Json)) (k : PyStr) (dflt : Json) : Json :=
  (jLookup fields k).getD dflt

/-- Python truthiness of a parsed-JSON value. -/
def pyTruthy : Json → Bool
  | .null => false
  | .bool b => b
  | .num n => n ≠ 0
  | .str s => !s.isEmpty
  | .arr l => !l.isEmpty
  | .obj fs => !fs.isEmpty

/-- `x or dflt` in Python, for a JSON value. -/
def pyOrElse (v dflt : Json) : Json := if pyTruthy v then v else dflt

/-- Escaping of one character inside `repr` of a string (printable-ASCII model
of CPython's quoting; the data under the claims only exercises this path). -/
def reprEscape (q c : Char) : PyStr :=
  if c = '\\' then ['\\', '\\']
  else if c = q then ['\\', q]
  else if c = '\n' then ['\\', 'n']
  else if c = '\r' then ['\\', 'r']
  else if c = '\t' then ['\\', 't']
  else [c]

/-- Python `repr` of a string: single-quoted unless the text holds a single
quote and no double quote. -/
def strRepr (s : PyStr) : PyStr :=
  let q : Char := if s.contains '\'' && !s.contains '"' then '"' else '\''
  q :: s.flatMap (reprEscape q) ++ [q]

mutual

/-- Python `repr` of a parsed-JSON value. -/
def pyRepr : Json → PyStr
  | .null => "None".toList
  | .bool true => "True".toList
  | .bool false => "False".toList
  | .num n => (Int.repr n).toList
  | .str s => strRepr s
  | .arr l => '[' :: pyReprElems l ++ [']']
  | .obj fs => '\x7b' :: pyReprFields fs ++ ['\x7d']

/-- Comma-separated `repr` of list elements. -/
def pyReprElems : List Json → PyStr
  | [] => []
  | [x] => pyRepr x
  | x :: y :: xs => pyRepr x ++ ", ".toList ++ pyReprElems (y :: xs)

/-- Comma-separated `repr` of dict items. -/
def pyReprFields : List (PyStr × Json) → PyStr
  | [] => []
  | [(k, v)] => strRepr k ++ ": ".toList ++ pyRepr v
  | (k, v) :: y :: xs => strRepr k ++ ": ".toList ++ pyRepr v ++ ", ".toList ++ pyReprFields (y :: xs)

end

/-- Python `str(x)` of a parsed-JSON value. -/
def pyStr : Json → PyStr
  | .str s => s
  | j => pyRepr j

/-! ## JSON file loading with encoding fallback (`IL2DataParser._load_json_file`, `get_json_data`) -/

/-- Is a byte a UTF-8 continuation byte (`10xxxxxx`)? -/
def utf8Cont (b : Nat) : Bool := 128 ≤ b && b < 192

/-- Strict UTF-8 decoding of a byte sequence (RFC 3629: overlong forms,
surrogates and out-of-range code points rejected), modelling reading a file
with `encoding='utf-8'`.  `none` models `UnicodeDecodeError`. -/
def utf8Decode : List Nat → Option (List Char)
  | [] => some []
  | b :: t =>
    if b < 128 then (utf8Decode t).map (fun r => Char.ofNat b :: r)
    else if b < 192 then none
    else if b < 224 then
      match t with
      | b2 :: u =>
        if utf8Cont b2 then
          let cp := (b - 192) * 64 + (b2 - 128)
          if cp < 128 then none else (utf8Decode u).map (fun r => Char.ofNat cp :: r)
        else none
      | _ => none
    else if b < 240 then
      match t with
      | b2 :: b3 :: u =>
        if utf8Cont b2 && utf8Cont b3 then
          let cp := (b - 224) * 4096 + (b2 - 128) * 64 + (b3 - 128)
          if cp < 2048 || (55296 ≤ cp && cp < 57344) then none
          else (utf8Decode u).map (fun r => Char.ofNat cp :: r)
        else none
      | _ => none
    else if b < 245 then
      match t with
      | b2 :: b3 :: b4 :: u =>
        if utf8Cont b2 && utf8Cont b3 && utf8Cont b4 then
          let cp := (b - 240) * 262144 + (b2 - 128) * 4096 + (b3 - 128) * 64 + (b4 - 128)
          if cp < 65536 || 1114111 < cp then none
          else (utf8Decode u).map (fun r => Char.ofNat cp :: r)
        else none
      | _ => none
    else none

/-- Latin-1 decoding: every byte maps to the code point of the same value,
so it never fails (`encoding='latin-1'`). -/
def latin1Decode (bs : List Nat) : List Char := bs.map Char.ofNat

/-- UTF-8 decoding with `errors='replace'`: each undecodable byte or truncated
sequence yields U+FFFD (simplified one-replacement-per-bad-byte policy; no
claim under verification depends on the exact replacement count). -/
def utf8DecodeReplace : List Nat → List Char
  | [] => []
  | b :: t =>
    if b < 128 then Char.ofNat b :: utf8DecodeReplace t
    else if b < 192 then '�' :: utf8DecodeReplace t
    else if b < 224 then
      match t with
      | b2 :: u =>
        if utf8Cont b2 then
          let cp := (b - 192) * 64 + (b2 - 128)
          if cp < 128 then '�' :: utf8DecodeReplace u
          else Char.ofNat cp :: utf8DecodeReplace u
        else '�' :: utf8DecodeReplace (b2 :: u)
      | _ => ['�']
    else if b < 240 then
      match t with
      | b2 :: b3 :: u =>
        if utf8Cont b2 && utf8Cont b3 then
          let cp := (b - 224) * 4096 + (b2 - 128) * 64 + (b3 - 128)
          if cp < 2048 || (55296 ≤ cp && cp < 57344) then '�' :: utf8DecodeReplace u
          else Char.ofNat cp :: utf8DecodeReplace u
        else '�' :: utf8DecodeReplace (b2 :: b3 :: u)
      | _ => ['�']
    else if b < 245 then
      match t with
      | b2 :: b3 :: b4 :: u =>
        if utf8Cont b2 && utf8Cont b3 && utf8Cont b4 then
          let cp := (b - 240) * 262144 + (b2 - 128) * 4096 + (b3 - 128) * 64 + (b4 - 128)
          if cp < 65536 || 1114111 < cp then '�' :: utf8DecodeReplace u
          else Char.ofNat cp :: utf8DecodeReplace u
        else '�' :: utf8DecodeReplace (b2 :: b3 :: b4 :: u)
      | _ => ['�']
    else '�' :: utf8DecodeReplace t

/-- The state of the file named by a path. -/
inductive FileState where
  | missing
  | permissionDenied
  | content (bytes : List Nat)

/-- The Python exceptions that can escape the loader. -/
inductive PyExc where
  | unicodeDecodeError

/-- `IL2DataParser._load_json_file` (data_parser.py lines 87-137), parameterized
by the `json` parser on decoded text.  The first attempt opens with strict
UTF-8: its `except` clauses name only `json.JSONDecodeError` and the OS errors,
so a `UnicodeDecodeError` (raised when the bytes are not valid UTF-8)
propagates out of the function — `Except.error`. -/
def loadJsonFile (parse : List Char → Option Json) (fs : FileState) :
    Except PyExc (Option Json) :=
  match fs with
  | .missing => .ok none
  | .permissionDenied => .ok none
  | .content bytes =>
    match utf8Decode bytes with
    | none => .error .unicodeDecodeError
    | some text =>
      match parse text with
      | some v => .ok (some v)
      | none =>
        match parse (latin1Decode bytes) with
        | some v => .ok (some v)
        | none =>
          match parse (utf8DecodeReplace bytes) with
          | some v => .ok (some v)
          | none => .ok none

/-- `IL2DataParser.get_json_data` (data_parser.py lines 67-85): the cached load
runs inside `try`, whose `except (TypeError, ValueError, OSError)` also catches
`UnicodeDecodeError` (a `ValueError`); the handler then calls
`_load_json_file` directly, outside any handler, so a second
`UnicodeDecodeError` propagates to the caller. -/
def getJsonData (parse : List Char → Option Json) (fs : FileState) :
    Except PyExc (Option Json) :=
  match loadJsonFile parse fs with
  | .ok v => .ok v
  | .error _ => loadJsonFile parse fs

/-! ## Batch repository (`JsonBatchRepository`, batch_repository.py) -/

/-- `d[k] = v` on a Python dict modelled as an ordered association list:
an existing key keeps its position and takes the new value, a new key is
appended. -/
def dictSet (d : List (PyStr × Option Json)) (k : PyStr) (v : Option Json) :
    List (PyStr × Option Json) :=
  if (d.find? (fun kv => kv.1 == k)).isSome then
    d.map (fun kv => if kv.1 == k then (kv.1, v) else kv)
  else d ++ [(k, v)]

/-- Dict lookup for the batch payload map. -/
def dictLookup (d : List (PyStr × Option Json)) (k : PyStr) : Option (Option Json) :=
  (d.find? (fun kv => kv.1 == k)).map (·.2)

/-- Modelled from the spec: `IL2DataParser.get_json_many` is called by
`JsonBatchRepository.load_many` (batch_repository.py line 24) and by the test
suite, but no definition of it exists under `src/`; spec §4.1 specifies
`load_many(paths) -> map path→(JSON|null)`, "applies `load` per path".
The loader function stands for `get_json_data` keyed by path; the dict
comprehension gives Python-dict insertion semantics. -/
def getJsonMany (loader : PyStr → Option Json) (paths : List PyStr) :
    List (PyStr × Option Json) :=
  paths.foldl (fun acc p => dictSet acc p (loader p)) []

/-- Per-call batch statistics (`BatchReadStats`). -/
structure BatchReadStats where
  requested : Nat
  loaded : Nat
deriving DecidableEq

/-- `JsonBatchRepository.load_many` (batch_repository.py lines 22-26):
loads every path and counts the non-`None` payload values. -/
def loadMany (loader : PyStr → Option Json) (paths : List PyStr) :
    List (PyStr × Option Json) × BatchReadStats :=
  let payload := getJsonMany loader paths
  (payload, ⟨paths.length, payload.countP (fun kv => kv.2.isSome)⟩)

/-! ## Date handling (`IL2DataParser._is_valid_date_string`,
`IL2DataProcessor.format_date`, and the `strptime`/`strftime` round-trips) -/

/-- `IL2DataParser._is_valid_date_string` (data_parser.py lines 413-427):
non-empty, exactly 8 characters, all digits. -/
def isValidDateString (s : PyStr) : Bool :=
  !s.isEmpty && s.length == 8 && pyIsDigit s

/-- Days in a month of the proleptic Gregorian calendar used by `datetime`. -/
def daysInMonth (y m : Nat) : Nat :=
  if m = 2 then (if (y % 4 = 0 && y % 100 ≠ 0) || y % 400 = 0 then 29 else 28)
  else if m = 4 || m = 6 || m = 9 || m = 11 then 30
  else 31

/-- Does an 8-digit string parse under `datetime.strptime(s, '%Y%m%d')`?
(`datetime` requires year ≥ 1 and a real calendar date.) -/
def strptimeOk (s : PyStr) : Bool :=
  isValidDateString s &&
  (let y := digitsToNat (s.take 4)
   let m := digitsToNat ((s.drop 4).take 2)
   let d := digitsToNat (s.drop 6)
   1 ≤ y && 1 ≤ m && m ≤ 12 && 1 ≤ d && d ≤ daysInMonth y m)

/-- The `strptime('%Y%m%d')`/`strftime('%Y-%m-%d')` round trip of
`get_mission_data` (data_parser.py lines 342-347): `YYYYMMDD → YYYY-MM-DD`,
`none` when parsing raises `ValueError`. -/
def toDashedDate (s : PyStr) : Option PyStr :=
  if strptimeOk s then
    some (s.take 4 ++ '-' :: (s.drop 4).take 2 ++ '-' :: s.drop 6)
  else none

/-- `IL2DataProcessor.format_date` (data_processor.py lines 297-312):
`YYYYMMDD → DD/MM/YYYY`, with pass-through of anything invalid. -/
def formatDate (s : PyStr) : PyStr :=
  if !isValidDateString s then s
  else if strptimeOk s then s.drop 6 ++ '/' :: (s.drop 4).take 2 ++ '/' :: s.take 4
  else s

/-! ## Pilot-name cleaning (`IL2DataParser._clean_pilot_name`)

The source patterns are written as raw strings with doubled backslashes
(`r'^(?:Lieutenant|…|Maj)\\.?\\s*'` and `r'\\s+'`, data_parser.py lines
402-410), so in the regex each `\\` is an escaped literal backslash: after a
rank the pattern requires a literal `\`, an optional non-newline character,
another literal `\` and a run of `s` — it does not match `". "`-style rank
separators, and the second substitution replaces `\` followed by `s`-runs,
not whitespace. The embedding reproduces those patterns exactly. -/

/-- The rank alternation, in source order (alternation is first-match). -/
def rankStrs : List PyStr :=
  ["Lieutenant", "Ltn", "Fw", "Obltn", "Cne", "S/Lt", "Sergt", "Lt", "Capt",
   "Major", "Maj"].map String.toList

/-- Case-insensitive literal prefix test (re.IGNORECASE literal matching). -/
def ciIsPrefix (pre s : PyStr) : Bool := (pyLower pre).isPrefixOf (pyLower s)

/-- Greedy run of `s` under IGNORECASE (`s*` at the end of the pattern). -/
def dropSRun (s : PyStr) : PyStr := s.dropWhile (fun c => c = 's' || c = 'S')

/-- Match the tail pattern `\\.?\\s*` of the (buggy) rank regex against `s`:
a literal `\`, then greedily an optional non-newline character, then a
literal `\`, then a greedy run of `s`/`S`.  Returns the rest of the string
after the match, or `none` if the pattern cannot match here. -/
def buggyRankTail : PyStr → Option PyStr
  | '\\' :: t =>
    match t with
    | c :: '\\' :: u =>
      if c ≠ '\n' then some (dropSRun u)
      else match t with
        | '\\' :: u2 => some (dropSRun u2)
        | _ => none
    | '\\' :: u2 => some (dropSRun u2)
    | _ => none
  | _ => none

/-- Try the rank alternatives in order at the start of the string
(the pattern is anchored with `^`); regex backtracking moves to the next
alternative when the tail pattern fails. -/
def tryRankSub : List PyStr → PyStr → Option PyStr
  | [], _ => none
  | r :: rs, s =>
    if ciIsPrefix r s then
      match buggyRankTail (s.drop r.length) with
      | some rest => some rest
      | none => tryRankSub rs s
    else tryRankSub rs s

/-- `re.sub(r'\\s+', ' ', s)` (no IGNORECASE): replace every occurrence of a
literal `\` followed by one or more `s` with one space.  The `Bool` flag is
true while consuming the tail of an `s`-run. -/
def subBackslashS : Bool → PyStr → PyStr
  | true, 's' :: t => subBackslashS true t
  | _, '\\' :: 's' :: u => ' ' :: subBackslashS true u
  | _, c :: t => c :: subBackslashS false t
  | _, [] => []

/-- `IL2DataParser._clean_pilot_name` (data_parser.py lines 391-411), with the
doubled-backslash patterns as written in the source. -/
def cleanPilotName (s : PyStr) : PyStr :=
  let afterRank := (tryRankSub rankStrs s).getD s
  pyStrip (subBackslashS false (pyStrip afterRank))

/-! ## Ace document shapes (`IL2DataParser.get_campaign_aces`) -/

/-- The shape normalization of `IL2DataParser.get_campaign_aces`
(data_parser.py lines 177-218), applied to the parsed `CampaignAces.json`
payload (absent file ↦ `Json.null`). -/
def getCampaignAces (data : Json) : List Json :=
  if !pyTruthy data then []
  else match data with
    | .arr l => l
    | .obj fs =>
      match jLookup fs "aces".toList with
      | some (.arr l) => l
      | _ =>
        match jLookup fs "acesInCampaign".toList with
        | some (.obj g) => g.map (·.2)
        | _ => []
    | _ => []

/-- The three legacy shapes as the spec words them (claim side of C9):
a bare array, an object with an `"aces"` array, or an object with an
`"acesInCampaign"` map whose values become the array; anything else empty. -/
def specAcesShape (data : Json) : List Json :=
  match data with
  | .arr l => l
  | .obj fs =>
    match jLookup fs "aces".toList with
    | some (.arr l) => l
    | _ =>
      match jLookup fs "acesInCampaign".toList with
      | some (.obj g) => g.map (·.2)
      | _ => []
  | _ => []

/-! ## Mission-file heuristic matching (`IL2DataParser._find_mission_file_matches`) -/

/-- Tier 1 (data+pilot): filenames containing the (lowered) dashed date and,
when the lowered pilot name is non-empty, also the pilot name. -/
def tierMatchA (cands : List PyStr) (lowerPilot lowerDate : PyStr) : List PyStr :=
  cands.filter (fun f => pyIn lowerDate (pyLower f) &&
    (lowerPilot.isEmpty || pyIn lowerPilot (pyLower f)))

/-- Tier 2 (pilot only): filenames containing the lowered pilot name. -/
def tierMatchB (cands : List PyStr) (lowerPilot : PyStr) : List PyStr :=
  cands.filter (fun f => pyIn lowerPilot (pyLower f))

/-- Tier 3 (date only): filenames containing the lowered dashed date. -/
def tierMatchC (cands : List PyStr) (lowerDate : PyStr) : List PyStr :=
  cands.filter (fun f => pyIn lowerDate (pyLower f))

/-- The "date regex" of tier 4 as the source writes it:
`re.compile(r'\\d{4}-\\d{2}-\\d{2}')`, whose doubled backslashes make every
token literal — it matches exactly the 13-character text `\dddd-\dd-\dd`. -/
def buggyDateLit : PyStr := "\\dddd-\\dd-\\dd".toList

/-- Tier 4 as the source computes it: the first regex match in the raw
filename is always the literal `\dddd-\dd-\dd`, compared against the raw
dashed date. -/
def tierMatchD (cands : List PyStr) (dateDashed : PyStr) : List PyStr :=
  cands.filter (fun f => pyIn buggyDateLit f && buggyDateLit == dateDashed)

/-- `IL2DataParser._find_mission_file_matches` (data_parser.py lines 471-539):
four tiers of descending specificity, first non-empty tier wins; tier 2 runs
only when the pilot name is non-empty. -/
def findMissionFileMatches (cands : List PyStr) (pilotClean dateDashed : PyStr) :
    List PyStr :=
  let lp := pyLower pilotClean
  let ld := pyLower dateDashed
  let a := tierMatchA cands lp ld
  if !a.isEmpty then a
  else
    let b := if !lp.isEmpty then tierMatchB cands lp else []
    if !b.isEmpty then b
    else
      let c := tierMatchC cands ld
      if !c.isEmpty then c
      else tierMatchD cands dateDashed

/-- Does `t` begin with exactly the shape `\d{4}-\d{2}-\d{2}` (ten characters:
four digits, dash, two digits, dash, two digits)? Claim side of C6: the date
pattern as the spec (and the surrounding code comments) intend it. -/
def isDashedDate10 : PyStr → Bool
  | [a, b, c, d, x, e, f, y, g, h] =>
    isDigitChar a && isDigitChar b && isDigitChar c && isDigitChar d &&
    x = '-' && isDigitChar e && isDigitChar f && y = '-' &&
    isDigitChar g && isDigitChar h
  | _ => false

/-- Leftmost match of the intended date regex `\d{4}-\d{2}-\d{2}` in `s`
(`re.search` semantics: smallest starting index; the pattern has fixed
width 10). -/
def firstDateMatch (s : PyStr) : Option PyStr :=
  ((List.range s.length).find? (fun i => isDashedDate10 ((s.drop i).take 10))).map
    (fun i => (s.drop i).take 10)

/-! ## Mission aggregation (`IL2DataProcessor.process_missions_data`) -/

/-- A Python dict of JSON values in insertion order. -/
abbrev PyDict := List (PyStr × Json)

/-- Lexicographic `≤` on a pair of Python strings (tuple comparison). -/
def pairStrLe (x y : PyStr × PyStr) : Prop :=
  x.1 < y.1 ∨ (x.1 = y.1 ∧ x.2 ≤ y.2)

instance : DecidableRel pairStrLe := fun x y => by unfold pairStrLe; infer_instance

/-- The sort key of `process_missions_data` (data_processor.py line 177):
`lambda t: (t[0] or "99999999", t[0])` over the stored key `t[0]`. -/
def missionKey (t : PyStr × PyDict) : PyStr × PyStr :=
  (if t.1.isEmpty then "99999999".toList else t.1, t.1)

/-- The comparison used by the stable ascending sort of mission entries. -/
def missionRel (a b : PyStr × PyDict) : Prop := pairStrLe (missionKey a) (missionKey b)

instance : DecidableRel missionRel := fun a b => by unfold missionRel; infer_instance

/-- Participants list extracted from `haReport` (data_processor.py lines
118-125): the non-empty lines (`re.findall(r"^.+$", …, re.MULTILINE)`),
stripped, dropping boilerplate lines starting with "this mission" or
"the mission" (case-insensitive). -/
def pilotsOf (ha : PyStr) : List PyStr :=
  if ha.isEmpty then []
  else ((ha.splitOn '\n').filter (fun l => !l.isEmpty)).filterMap (fun line =>
    let c := pyStrip line
    if !c.isEmpty && !pyStartsWith (pyLower c) "this mission".toList &&
        !pyStartsWith (pyLower c) "the mission".toList then some c else none)

/-- Index of the leftmost occurrence of `needle` in `hay`. -/
def findSubIdx (needle hay : PyStr) : Option Nat :=
  (List.range hay.length).find? (fun i => needle.isPrefixOf (hay.drop i))

/-- `re.search(r"(Weather Report.*?)$", desc, re.DOTALL | re.IGNORECASE)`
(data_processor.py lines 137-139): the leftmost case-insensitive occurrence of
"Weather Report"; with DOTALL the lazy `.*?$` extends to the end of the text
(stopping just before one trailing newline, where `$` first matches). -/
def weatherSearch (desc : PyStr) : Option PyStr :=
  match findSubIdx "weather report".toList (pyLower desc) with
  | none => none
  | some i =>
    let e := if desc.getLast? = some '\n' then desc.length - 1 else desc.length
    some ((desc.take e).drop i)

/-- Sentinel when no weather section is found. -/
def weatherDefault : PyStr := "Não disponível".toList

/-- Sentinel when the mission description is missing. -/
def descNotFound : PyStr := "Descrição da missão não encontrada.".toList

/-- The opportunistic player-squadron scan over `missionPlanes`
(data_processor.py lines 143-153): the first key equal to the player serial
yields `v.get("squadronId")` (or `None` if the value is not a dict); a
non-dict `missionPlanes` raises `AttributeError`, which the enclosing
`except (AttributeError, TypeError): pass` swallows, keeping the accumulator. -/
def squadScan (md : PyDict) (serial : PyStr) (acc : Json) : Json :=
  match pyOrElse (jGetD md "missionPlanes".toList (.obj [])) (.obj []) with
  | .obj kvs =>
    match kvs.find? (fun kv => kv.1 == serial) with
    | some kv =>
      match kv.2 with
      | .obj vf => (jLookup vf "squadronId".toList).getD .null
      | _ => .null
    | none => acc
  | _ => acc

/-- One iteration of the report loop of `process_missions_data`
(data_processor.py lines 101-174): a non-dict report is skipped; a dict
report yields the `(sort-key, mission-entry)` pair appended to
`missions_with_key` plus the updated `player_squadron_id`.  `gm` stands for
`get_mission_data` (already `or {}`-normalized to a dict, with the resolver's
exceptions mapped to `{}` by the enclosing `try`). -/
def buildMissionEntry (gm : Json → PyDict) (serial : PyStr) (acc : Json) (r : Json) :
    Option ((PyStr × PyDict) × Json) :=
  match r with
  | .obj fs =>
    let rawDate := pyStr ((jLookup fs "date".toList).getD (.str []))
    let md := gm (.obj fs)
    let mtime := pyStr ((jLookup fs "time".toList).getD (.str "NA".toList))
    let ha := pyStr (pyOrElse ((jLookup fs "haReport".toList).getD .null) (.str []))
    let descText := pyStr (if !md.isEmpty then jGetD md "missionDescription".toList (.str descNotFound)
      else .str descNotFound)
    let weather := if !md.isEmpty then
        match weatherSearch descText with
        | some g => pyStrip g
        | none => weatherDefault
      else weatherDefault
    let acc2 := if pyTruthy acc then acc else squadScan md serial acc
    let airfield := match jGetD md "missionHeader".toList (.obj []) with
      | .obj mh => (jLookup mh "airfield".toList).getD (.str "NA".toList)
      | _ => .str "NA".toList
    let entry : PyDict := [
      ("date".toList, if !rawDate.isEmpty then .str (formatDate rawDate)
        else (jLookup fs "date".toList).getD (.str "NA".toList)),
      ("time".toList, .str mtime),
      ("aircraft".toList, (jLookup fs "type".toList).getD (.str "NA".toList)),
      ("duty".toList, (jLookup fs "duty".toList).getD (.str "NA".toList)),
      ("locality".toList, (jLookup fs "locality".toList).getD (.str "NA".toList)),
      ("airfield".toList, airfield),
      ("pilots".toList, .arr ((pilotsOf ha).map .str)),
      ("weather".toList, .str weather),
      ("description".toList, .str descText),
      ("haReport".toList, (jLookup fs "haReport".toList).getD (.str []))]
    some ((if !rawDate.isEmpty then rawDate else "99999999".toList, entry), acc2)
  | _ => none

/-- The report loop: collect keyed entries in report order while threading the
`player_squadron_id` accumulator. -/
def collectMissions (gm : Json → PyDict) (serial : PyStr) :
    Json → List Json → List (PyStr × PyDict) × Json
  | acc, [] => ([], acc)
  | acc, r :: rs =>
    match buildMissionEntry gm serial acc r with
    | none => collectMissions gm serial acc rs
    | some (e, acc2) =>
      let (es, accF) := collectMissions gm serial acc2 rs
      (e :: es, accF)

/-- The keyed entry list after the stable ascending sort
(`missions_with_key.sort(...)`; Python's sort is a stable sort by the key). -/
def missionsKeyedSorted (gm : Json → PyDict) (serial : PyStr) (reports : List Json) :
    List (PyStr × PyDict) :=
  List.insertionSort missionRel (collectMissions gm serial .null reports).1

/-- `IL2DataProcessor.process_missions_data` (data_processor.py lines 84-182):
the sorted mission-entry list (keys dropped) and the discovered player
squadron id (`Json.null` models Python `None`). -/
def processMissionsData (gm : Json → PyDict) (serial : PyStr) (reports : List Json) :
    List PyDict × Json :=
  ((missionsKeyedSorted gm serial reports).map (·.2),
   (collectMissions gm serial .null reports).2)

/-! ## Squadron aggregation (`IL2DataProcessor.process_squadron_data`) -/

/-- `IL2DataProcessor.get_pilot_status` (data_processor.py lines 238-255) on an
integer code. -/
def statusOfCode (n : Int) : PyStr :=
  if n = 0 ∨ n = 1 then "Ativo".toList
  else if n = 2 then "Morto em Combate (KIA)".toList
  else if n = 3 then "Gravemente Ferido (WIA)".toList
  else if n = 4 then "Capturado (POW)".toList
  else if n = 5 then "Desaparecido em Combate (MIA)".toList
  else "Desconhecido".toList

/-- `get_pilot_status` on an arbitrary JSON status value: the dict lookup uses
Python equality, under which `True == 1` and `False == 0`; any non-integral
key misses and yields the default. -/
def pilotStatus : Json → PyStr
  | .num n => statusOfCode n
  | .bool b => statusOfCode (if b then 1 else 0)
  | _ => "Desconhecido".toList

/-- The `victories` normalization of `process_squadron_data` (data_processor.py
lines 202-211): collections count as their length; otherwise `str(v).isdigit()`
admits non-negative ints and digit strings; everything else is 0. -/
def normVictories : Json → Int
  | .arr l => l.length
  | .obj fs => fs.length
  | .num n => if 0 ≤ n then n else 0
  | .str s => if pyIsDigit s then digitsToNat s else 0
  | _ => 0

/-- The `missionFlown` normalization of `process_squadron_data`
(data_processor.py lines 213-223): an `int` (including a negative one, and
`bool` as a subclass of `int`) passes through `int(m)`; a digit string parses;
everything else (including lists) is 0. -/
def normMissionFlown : Json → Int
  | .num n => n
  | .bool b => if b then 1 else 0
  | .str s => if pyIsDigit s then digitsToNat s else 0
  | _ => 0

/-- One squadron-roster entry (the dict of data_processor.py lines 225-233,
modelled as a record with its fixed keys). -/
structure SquadronMember where
  name : Json
  rank : Json
  victories : Int
  missionsFlown : Int
  status : PyStr

/-- Build one member entry from a member dict. -/
def mkSquadMember (p : PyDict) : SquadronMember :=
  { name := jGetD p "name".toList (.str "NA".toList)
    rank := jGetD p "rank".toList (.str "NA".toList)
    victories := normVictories (jGetD p "victories".toList (.arr []))
    missionsFlown := normMissionFlown (jGetD p "missionFlown".toList (.num 0))
    status := pilotStatus (jGetD p "pilotActiveStatus".toList (.num (-1))) }

/-- The member loop: `p.get(...)` on a non-dict member raises
`AttributeError`, which the `try` blocks (catching only `TypeError`,
`ValueError`) do not handle — the whole call raises. -/
def squadMembersOf : List Json → Except Unit (List SquadronMember)
  | [] => .ok []
  | p :: ps =>
    match p with
    | .obj pf => (squadMembersOf ps).map (fun r => mkSquadMember pf :: r)
    | _ => .error ()

/-- Lexicographic `≤` on integer pairs (Python tuple comparison). -/
def intPairLe (x y : Int × Int) : Prop :=
  x.1 < y.1 ∨ (x.1 = y.1 ∧ x.2 ≤ y.2)

instance : DecidableRel intPairLe := fun x y => by unfold intPairLe; infer_instance

/-- The comparison of `result.sort(key=..., reverse=True)`: `a` may precede
`b` iff `b`'s key is lexicographically at most `a`'s (stable descending sort). -/
def squadRel (a b : SquadronMember) : Prop :=
  intPairLe (b.missionsFlown, b.victories) (a.missionsFlown, a.victories)

instance : DecidableRel squadRel := fun a b => by unfold squadRel; infer_instance

/-- `IL2DataProcessor.process_squadron_data` (data_processor.py lines 184-236).
A falsy payload returns `[]`; `squadron_personnel.get` on a truthy non-dict,
or `coll.values()` on a truthy non-dict collection, raises `AttributeError`
(uncaught). -/
def processSquadronData (personnel : Json) : Except Unit (List SquadronMember) :=
  if !pyTruthy personnel then .ok []
  else match personnel with
    | .obj fs =>
      match pyOrElse (jGetD fs "squadronMemberCollection".toList (.obj [])) (.obj []) with
      | .obj ms => (squadMembersOf (ms.map (·.2))).map (List.insertionSort squadRel)
      | _ => .error ()
    | _ => .error ()

/-! ## Ace aggregation (`IL2DataProcessor.process_aces_data`) -/

/-- The `victories` normalization for aces (data_processor.py lines 274-283):
only a `list` counts as its length; `isinstance(v, (int, str)) and
str(v).isdigit()` admits non-negative ints and digit strings (`bool` fails
the isdigit test); everything else is 0. -/
def aceVictories : Json → Int
  | .arr l => l.length
  | .num n => if 0 ≤ n then n else 0
  | .str s => if pyIsDigit s then digitsToNat s else 0
  | _ => 0

/-- One ace-leaderboard entry (the dict of data_processor.py lines 286-292). -/
structure AceMember where
  name : Json
  rank : Json
  country : Json
  victories : Int
  missionsFlown : Json

/-- Build one ace entry from an ace dict. -/
def mkAceMember (a : PyDict) : AceMember :=
  { name := jGetD a "name".toList (.str "NA".toList)
    rank := jGetD a "rank".toList (.str "NA".toList)
    country := jGetD a "country".toList (.str [])
    victories := aceVictories (jGetD a "victories".toList (.arr []))
    missionsFlown := jGetD a "missionFlown".toList (.num 0) }

/-- The ace loop: `ace.get` on a non-dict raises `AttributeError` (uncaught by
the `except (TypeError, ValueError)`). -/
def aceMembersOf : List Json → Except Unit (List AceMember)
  | [] => .ok []
  | a :: as_ =>
    match a with
    | .obj af => (aceMembersOf as_).map (fun r => mkAceMember af :: r)
    | _ => .error ()

/-- The comparison of `out.sort(key=lambda x: x["victories"], reverse=True)`. -/
def aceRel (a b : AceMember) : Prop := b.victories ≤ a.victories

instance : DecidableRel aceRel := fun a b => by unfold aceRel; infer_instance

/-- `IL2DataProcessor.process_aces_data` (data_processor.py lines 257-295). -/
def processAcesData (aces : List Json) : Except Unit (List AceMember) :=
  if aces.isEmpty then .ok []
  else (aceMembersOf aces).map (List.insertionSort aceRel)

/-! ## Personnel resolution (`PersonnelResolutionService`,
personnel_resolution_service.py)

The filesystem part (blank-campaign check, `Personnel/` existence, the sorted
glob and the batch load) is modelled by handing the service the list of
successfully loaded payloads in sorted-filename order; `resolve_many` skips
`None` payloads, so the list holds the non-null payloads. -/

/-- The resolution result (`PersonnelResolutionResult`); the `frozenset` of
medal ids is a `Finset`. -/
structure ResolutionResult where
  countryCode : PyStr
  displayName : PyStr
  earnedMedalIds : Finset PyStr
deriving DecidableEq

/-- The GERMANY policy default. -/
def defaultResolution : ResolutionResult :=
  ⟨"GERMANY".toList, "Germany".toList, ∅⟩

/-- `PersonnelResolutionService._map_country_to_folder_and_label`
(personnel_resolution_service.py lines 103-116). -/
def mapCountryToFolderAndLabel (country : PyStr) : PyStr × PyStr :=
  let c := pyUpper (pyStrip country)
  if ((["GERMANY", "GER", "DE", "DEU", "ALEMANHA", "ALLEMAGNE", "DEUTSCHLAND"].map
      String.toList).contains c) then ("GERMANY".toList, "Germany".toList)
  else if ((["FRANCE", "FR", "FRA"].map String.toList).contains c) then
    ("FRANCE".toList, "France".toList)
  else if ((["BRITAIN", "UK", "GB", "GBR", "UNITED KINGDOM", "BRIT"].map
      String.toList).contains c) then ("BRITAIN".toList, "Britain".toList)
  else if ((["BELGIAN", "BELGIUM", "BE", "BEL"].map String.toList).contains c) then
    ("BELGIAN".toList, "Belgian".toList)
  else if ((["USA", "US", "UNITED STATES", "UNITED STATES OF AMERICA"].map
      String.toList).contains c) then ("USA".toList, "USA".toList)
  else ("GERMANY".toList, "Germany".toList)

/-- Medal id of an image filename (personnel_resolution_service.py line 78):
`img[:-4]` only when the name ends with `.png` (case-insensitive), the full
name otherwise. -/
def medalIdOfImage (img : PyStr) : PyStr :=
  if pyEndsWith (pyLower img) ".png".toList then img.take (img.length - 4) else img

/-- The slug of a medal display name (line 84): lower-cased, spaces to
underscores. -/
def slugOfName (n : PyStr) : PyStr :=
  (pyLower n).map (fun c => if c = ' ' then '_' else c)

/-- The medal loop (personnel_resolution_service.py lines 75-84).  A non-dict
medal raises `AttributeError`, caught only by the service-level
`except Exception`, so the loop stops and the ids gathered so far survive
into the returned result. -/
def medalIdsOf : List Json → Finset PyStr
  | [] => ∅
  | m :: ms =>
    match m with
    | .obj mf =>
      let img := pyStrip (pyStr (pyOrElse (jGetD mf "medalImage".toList (.str [])) (.str [])))
      if !img.isEmpty then insert (medalIdOfImage img) (medalIdsOf ms)
      else
        let mn := pyStrip (pyStr (pyOrElse (jGetD mf "medalName".toList (.str [])) (.str [])))
        if !mn.isEmpty then insert (slugOfName mn) (medalIdsOf ms)
        else medalIdsOf ms
    | _ => ∅

/-- Iterating a non-list `medals` value aborts at once (its items are
non-dicts, or iteration itself raises `TypeError`), leaving the set empty. -/
def medalSetOfJson : Json → Finset PyStr
  | .arr l => medalIdsOf l
  | _ => ∅

/-- The member scan of `_resolve_member` (personnel_resolution_service.py
lines 59-68): each member's trimmed lowered name is compared with the
normalized pilot name; the per-member `except (KeyError, TypeError,
AttributeError): continue` skips non-dict members. -/
def memberScan (norm : PyStr) : List Json → Option (PyStr × PyStr × Json)
  | [] => none
  | m :: ms =>
    match m with
    | .obj mf =>
      let name := pyLower (pyStrip (pyStr (pyOrElse (jGetD mf "name".toList (.str [])) (.str []))))
      if name = norm then
        let country := pyUpper (pyStrip (pyStr (pyOrElse (jGetD mf "country".toList (.str [])) (.str []))))
        let medals := pyOrElse (jGetD mf "medals".toList (.arr [])) (.arr [])
        some (country, name, medals)
      else memberScan norm ms
    | _ => memberScan norm ms

/-- `_resolve_member` on one payload: a non-dict payload yields `None`;
`coll.values()` on a truthy non-dict collection raises `AttributeError`
outside the per-member handler. -/
def resolveMemberPayload (norm : PyStr) (payload : Json) :
    Except Unit (Option (PyStr × PyStr × Json)) :=
  match payload with
  | .obj fs =>
    match pyOrElse (jGetD fs "squadronMemberCollection".toList (.obj [])) (.obj []) with
    | .obj ms => .ok (memberScan norm (ms.map (·.2)))
    | _ => .error ()
  | _ => .ok none

/-- `JsonBatchRepository.resolve_many` applied to `_resolve_member`: every
payload is visited (an exception in any later payload therefore discards the
matches already gathered), keeping the non-`None` results in order. -/
def resolveManyMembers (norm : PyStr) : List Json → Except Unit (List (PyStr × PyStr × Json))
  | [] => .ok []
  | p :: ps =>
    match resolveMemberPayload norm p with
    | .error e => .error e
    | .ok none => resolveManyMembers norm ps
    | .ok (some m) => (resolveManyMembers norm ps).map (fun r => m :: r)

/-- `PersonnelResolutionService.resolve` from the loaded payload list on
(personnel_resolution_service.py lines 27-101): blank pilot name gives the
default; the first match supplies country and medals; any swallowed exception
falls back to the accumulated (here: default or partial) state. -/
def resolvePersonnelFromPayloads (payloads : List Json) (pilotName : PyStr) :
    ResolutionResult :=
  let norm := pyLower (pyStrip pilotName)
  if norm.isEmpty then defaultResolution
  else
    match resolveManyMembers norm payloads with
    | .error _ => defaultResolution
    | .ok [] => defaultResolution
    | .ok (m :: _) =>
      let cd := mapCountryToFolderAndLabel m.1
      ⟨cd.1, cd.2, medalSetOfJson m.2.2⟩

/-! ## Auxiliary definitions used by the statements -/

/-- The filename stem (`pathlib.Path(name).stem` for ordinary names such as
`croix.jpg`): the name with its last dot-suffix removed.  Claim side of C3:
the spec says a medal image contributes its "image filename stem". -/
def fileStem (s : PyStr) : PyStr :=
  if s.contains '.' then s.take (s.length - 1 - s.reverse.findIdx (fun c => c = '.'))
  else s

/-- The bytes of `{"a":"é"}` encoded in Latin-1: a valid Latin-1 file holding
valid JSON, whose byte 0xE9 makes it invalid as UTF-8. -/
def latin1JsonBytes : List Nat := [123, 34, 97, 34, 58, 34, 233, 34, 125]

/-! ## Helper lemmas -/

/-- `insertionSort` (the model of Python's stable `list.sort`) outputs a list
pairwise related by any transitive total comparison. -/
theorem pairwiseInsertionSortOf {α : Type} (r : α → α → Prop) [DecidableRel r]
    (ht : ∀ a b c, r a b → r b c → r a c) (htot : ∀ a b, r a b ∨ r b a)
    (l : List α) : (List.insertionSort r l).Pairwise r := by
  letI : IsTrans α r := ⟨ht⟩
  letI : IsTotal α r := ⟨htot⟩
  exact List.sorted_insertionSort r l

theorem pairStrLe_total (x y : PyStr × PyStr) : pairStrLe x y ∨ pairStrLe y x := by
  unfold pairStrLe
  rcases lt_trichotomy x.1 y.1 with h | h | h
  · exact Or.inl (Or.inl h)
  · rcases le_total x.2 y.2 with h2 | h2
    · exact Or.inl (Or.inr ⟨h, h2⟩)
    · exact Or.inr (Or.inr ⟨h.symm, h2⟩)
  · exact Or.inr (Or.inl h)

theorem pairStrLe_trans (x y z : PyStr × PyStr) (hxy : pairStrLe x y)
    (hyz : pairStrLe y z) : pairStrLe x z := by
  unfold pairStrLe at *
  rcases hxy with h1 | ⟨e1, l1⟩ <;> rcases hyz with h2 | ⟨e2, l2⟩
  · exact Or.inl (lt_trans h1 h2)
  · exact Or.inl (e2 ▸ h1)
  · exact Or.inl (e1 ▸ h2)
  · exact Or.inr ⟨e1.trans e2, le_trans l1 l2⟩

theorem missionRel_trans (a b c : PyStr × PyDict) (h1 : missionRel a b)
    (h2 : missionRel b c) : missionRel a c :=
  pairStrLe_trans _ _ _ h1 h2

theorem missionRel_total (a b : PyStr × PyDict) : missionRel a b ∨ missionRel b a :=
  pairStrLe_total _ _

theorem intPairLe_total (x y : Int × Int) : intPairLe x y ∨ intPairLe y x := by
  unfold intPairLe; omega

theorem intPairLe_trans (x y z : Int × Int) (h1 : intPairLe x y) (h2 : intPairLe y z) :
    intPairLe x z := by
  unfold intPairLe at *; omega

theorem squadRel_trans (a b c : SquadronMember) (h1 : squadRel a b) (h2 : squadRel b c) :
    squadRel a c :=
  intPairLe_trans _ _ _ h2 h1

theorem squadRel_total (a b : SquadronMember) : squadRel a b ∨ squadRel b a :=
  (intPairLe_total _ _).symm

theorem aceRel_trans (a b c : AceMember) (h1 : aceRel a b) (h2 : aceRel b c) :
    aceRel a c := le_trans h2 h1

theorem aceRel_total (a b : AceMember) : aceRel a b ∨ aceRel b a :=
  (le_total a.victories b.victories).symm

theorem isPrefixOf_append_self (n q : PyStr) : n.isPrefixOf (n ++ q) = true := by
  induction n with
  | nil =>
    cases q with
    | nil => rfl
    | cons c t => rfl
  | cons c t ih => simp [List.isPrefixOf_cons₂, ih]

theorem pyIn_of_isPrefixOf {n h : PyStr} (hp : n.isPrefixOf h = true) :
    pyIn n h = true := by
  cases h with
  | nil =>
    cases n with
    | nil => rfl
    | cons c t => exact absurd hp (by simp [List.isPrefixOf])
  | cons c t => simp [pyIn, hp]

/-- A string occurs in any string of which it is the middle part. -/
theorem pyIn_of_parts (p n q : PyStr) : pyIn n (p ++ n ++ q) = true := by
  induction p with
  | nil =>
    simpa using pyIn_of_isPrefixOf (isPrefixOf_append_self n q)
  | cons c p ih =>
    simpa [pyIn] using Or.inr ih

theorem toLower_digit {c : Char} (h : isDigitChar c = true) : c.toLower = c := by
  simp only [isDigitChar, Bool.and_eq_true, decide_eq_true_eq] at h
  simp only [Char.toLower]
  split
  · exfalso; omega
  · rfl

/-- The intended date shape is made of digits and dashes, which
`str.lower()` leaves unchanged. -/
theorem pyLower_dashedDate (d : PyStr) (h : isDashedDate10 d = true) :
    pyLower d = d := by
  unfold isDashedDate10 at h
  split at h
  · rename_i a b c dd x e f y g hh
    simp only [Bool.and_eq_true, decide_eq_true_eq] at h
    obtain ⟨⟨⟨⟨⟨⟨⟨⟨⟨h1, h2⟩, h3⟩, h4⟩, hx⟩, h5⟩, h6⟩, hy⟩, h7⟩, h8⟩ := h
    subst hx hy
    simp [pyLower, toLower_digit h1, toLower_digit h2, toLower_digit h3,
      toLower_digit h4, toLower_digit h5, toLower_digit h6, toLower_digit h7,
      toLower_digit h8]
  · exact absurd h (by simp)

/-- The intended date shape starts with a digit. -/
theorem dashedDate_head (d : PyStr) (h : isDashedDate10 d = true) :
    ∃ a t, d = a :: t ∧ isDigitChar a = true := by
  unfold isDashedDate10 at h
  split at h
  · rename_i a b c dd x e f y g hh
    simp only [Bool.and_eq_true, decide_eq_true_eq] at h
    obtain ⟨⟨⟨⟨⟨⟨⟨⟨⟨h1, h2⟩, h3⟩, h4⟩, hx⟩, h5⟩, h6⟩, hy⟩, h7⟩, h8⟩ := h
    exact ⟨a, _, rfl, h1⟩
  · exact absurd h (by simp)

theorem find?_append_of_none {α : Type} {p : α → Bool} {l l' : List α}
    (h : l.find? p = none) : (l ++ l').find? p = l'.find? p := by
  induction l with
  | nil => rfl
  | cons a l ih =>
    cases hp : p a with
    | true => rw [List.find?_cons_of_pos l hp] at h; exact absurd h (by simp)
    | false =>
      rw [List.find?_cons_of_neg l (by simp [hp])] at h
      rw [List.cons_append, List.find?_cons_of_neg (l ++ l') (by simp [hp])]
      exact ih h

theorem lookup_map_set (d : List (PyStr × Option Json)) (k : PyStr) (v : Option Json)
    (h : (d.find? (fun kv => kv.1 == k)).isSome = true) :
    dictLookup (d.map (fun kv => if kv.1 == k then (kv.1, v) else kv)) k = some v := by
  induction d with
  | nil => simp at h
  | cons kv d ih =>
    cases hk : (kv.1 == k) with
    | true =>
      have hhead : (if (kv.1 == k) = true then (kv.1, v) else kv) = (kv.1, v) :=
        if_pos hk
      rw [List.map_cons, hhead]
      unfold dictLookup
      rw [@List.find?_cons_of_pos _ (fun kv => kv.1 == k) (kv.1, v) _ hk]
      rfl
    | false =>
      have hhead : (if (kv.1 == k) = true then (kv.1, v) else kv) = kv :=
        if_neg (by simp [hk])
      rw [@List.find?_cons_of_neg _ (fun kv => kv.1 == k) kv d (by simp [hk])] at h
      rw [List.map_cons, hhead]
      unfold dictLookup
      rw [@List.find?_cons_of_neg _ (fun kv => kv.1 == k) kv _ (by simp [hk])]
      exact ih h

theorem lookup_map_set_ne (d : List (PyStr × Option Json)) (k k' : PyStr)
    (v : Option Json) (h : k' ≠ k) :
    dictLookup (d.map (fun kv => if kv.1 == k then (kv.1, v) else kv)) k' =
      dictLookup d k' := by
  induction d with
  | nil => rfl
  | cons kv d ih =>
    cases hk : (kv.1 == k) with
    | true =>
      have hkv : kv.1 = k := by simpa using hk
      have hne : (kv.1 == k') = false := beq_eq_false_iff_ne.mpr (by
        rw [hkv]; exact Ne.symm h)
      have hhead : (if (kv.1 == k) = true then (kv.1, v) else kv) = (kv.1, v) :=
        if_pos hk
      rw [List.map_cons, hhead]
      unfold dictLookup
      rw [@List.find?_cons_of_neg _ (fun kv => kv.1 == k') (kv.1, v) _ (by simp [hne]),
        @List.find?_cons_of_neg _ (fun kv => kv.1 == k') kv d (by simp [hne])]
      exact ih
    | false =>
      have hhead : (if (kv.1 == k) = true then (kv.1, v) else kv) = kv :=
        if_neg (by simp [hk])
      rw [List.map_cons, hhead]
      cases hk' : (kv.1 == k') with
      | true =>
        unfold dictLookup
        rw [@List.find?_cons_of_pos _ (fun kv => kv.1 == k') kv _ hk',
          @List.find?_cons_of_pos _ (fun kv => kv.1 == k') kv d hk']
      | false =>
        unfold dictLookup
        rw [@List.find?_cons_of_neg _ (fun kv => kv.1 == k') kv _ (by simp [hk']),
          @List.find?_cons_of_neg _ (fun kv => kv.1 == k') kv d (by simp [hk'])]
        exact ih

theorem find?_append_of_some {α : Type} {p : α → Bool} {l l' : List α} {x : α}
    (h : l.find? p = some x) : (l ++ l').find? p = some x := by
  induction l with
  | nil => simp at h
  | cons a l ih =>
    cases hp : p a with
    | true =>
      rw [List.find?_cons_of_pos l hp] at h
      rw [List.cons_append, List.find?_cons_of_pos _ hp]
      exact h
    | false =>
      rw [List.find?_cons_of_neg l (by simp [hp])] at h
      rw [List.cons_append, List.find?_cons_of_neg _ (by simp [hp])]
      exact ih h

theorem dictLookup_dictSet_self (d : List (PyStr × Option Json)) (k : PyStr)
    (v : Option Json) : dictLookup (dictSet d k v) k = some v := by
  unfold dictSet
  split
  · rename_i hfind
    exact lookup_map_set d k v hfind
  · rename_i hfind
    have hn : d.find? (fun kv => kv.1 == k) = none :=
      Option.not_isSome_iff_eq_none.mp hfind
    unfold dictLookup
    rw [find?_append_of_none hn]
    rw [@List.find?_cons_of_pos _ (fun kv => kv.1 == k) (k, v) [] (by simp)]
    rfl

theorem dictLookup_dictSet_ne (d : List (PyStr × Option Json)) (k k' : PyStr)
    (v : Option Json) (h : k' ≠ k) :
    dictLookup (dictSet d k v) k' = dictLookup d k' := by
  unfold dictSet
  split
  · exact lookup_map_set_ne d k k' v h
  · cases hd' : d.find? (fun kv => kv.1 == k') with
    | some x =>
      unfold dictLookup
      rw [find?_append_of_some hd', hd']
    | none =>
      unfold dictLookup
      rw [find?_append_of_none hd']
      rw [@List.find?_cons_of_neg _ (fun kv => kv.1 == k') (k, v) [] (by simp [Ne.symm h])]
      simp [hd']

theorem foldl_dictSet_lookup (loader : PyStr → Option Json) (paths : List PyStr)
    (acc : List (PyStr × Option Json)) (p : PyStr) :
    dictLookup (paths.foldl (fun a q => dictSet a q (loader q)) acc) p =
      if p ∈ paths then some (loader p) else dictLookup acc p := by
  induction paths generalizing acc with
  | nil => simp
  | cons q rest ih =>
    rw [List.foldl_cons, ih]
    by_cases hr : p ∈ rest
    · simp [hr, List.mem_cons]
    · by_cases hq : p = q
      · subst hq
        simp [hr, dictLookup_dictSet_self]
      · simp [hr, hq, dictLookup_dictSet_ne acc q p (loader q) hq]

/-- Under the intended date regex, any candidate whose first embedded date
equals the dashed date also contains the dashed date as a substring, so it
would already have been caught by tier 3: when tier 3 is empty the
claim-side tier-4 set is empty too. -/
theorem claimTierD_empty (cands : List PyStr) (d : PyStr)
    (hd : isDashedDate10 d = true)
    (hc : tierMatchC cands (pyLower d) = []) :
    cands.filter (fun f => firstDateMatch f == some d) = [] := by
  rw [List.filter_eq_nil_iff]
  intro f hf hmatch
  have hm : firstDateMatch f = some d := by simpa using hmatch
  unfold firstDateMatch at hm
  obtain ⟨i, hfind, hext⟩ := Option.map_eq_some'.mp hm
  have hsplit : f.take i ++ (d ++ (f.drop i).drop 10) = f := by
    rw [← hext, List.take_append_drop, List.take_append_drop]
  have hlow : pyLower d = d := pyLower_dashedDate d hd
  have hin : pyIn (pyLower d) (pyLower f) = true := by
    rw [hlow, ← hsplit, pyLower, List.map_append, List.map_append, ← pyLower, ← pyLower,
      ← pyLower, hlow, ← List.append_assoc]
    exact pyIn_of_parts _ _ _
  have hnot := List.filter_eq_nil_iff.mp hc f hf
  exact hnot (by simpa [tierMatchC] using hin)

theorem normVictories_nonneg (v : Json) : 0 ≤ normVictories v := by
  cases v with
  | null => exact le_refl 0
  | bool b => exact le_refl 0
  | arr l => exact Int.natCast_nonneg _
  | obj fs => exact Int.natCast_nonneg _
  | num n =>
    dsimp only [normVictories]
    split
    · rename_i h; exact h
    · exact le_refl 0
  | str s =>
    dsimp only [normVictories]
    split
    · exact Int.natCast_nonneg _
    · exact le_refl 0

theorem squadMembersOf_mem {ps : List Json} {base : List SquadronMember}
    (h : squadMembersOf ps = .ok base) {m : SquadronMember} (hm : m ∈ base) :
    ∃ pf, m = mkSquadMember pf := by
  induction ps generalizing base with
  | nil =>
    unfold squadMembersOf at h
    injection h with h
    subst h
    exact absurd hm (by simp)
  | cons p ps ih =>
    cases p with
    | obj pf =>
      unfold squadMembersOf at h
      cases hps : squadMembersOf ps with
      | error e => rw [hps] at h; simp only [Except.map] at h; exact absurd h (by simp)
      | ok rest =>
        rw [hps] at h
        simp only [Except.map] at h
        injection h with h
        subst h
        rcases List.mem_cons.mp hm with he | hm'
        · exact ⟨pf, he⟩
        · exact ih hps hm'
    | null => simp [squadMembersOf] at h
    | bool b => simp [squadMembersOf] at h
    | num n => simp [squadMembersOf] at h
    | str s => simp [squadMembersOf] at h
    | arr l => simp [squadMembersOf] at h

/-- Unpack a successful `processSquadronData` run: the output is the stable
descending sort of a member list built by `mkSquadMember`. -/
theorem processSquadronData_ok_elim {personnel : Json} {out : List SquadronMember}
    (h : processSquadronData personnel = .ok out) :
    ∃ ps base, squadMembersOf ps = .ok base ∧ out = List.insertionSort squadRel base := by
  unfold processSquadronData at h
  split at h
  · injection h with h
    exact ⟨[], [], rfl, by rw [← h]; rfl⟩
  · split at h
    · split at h
      · rename_i ms hms
        cases hsm : squadMembersOf (ms.map (·.2)) with
        | error e =>
          rw [hsm] at h; simp only [Except.map] at h; exact absurd h (by simp)
        | ok base =>
          rw [hsm] at h
          simp only [Except.map] at h
          injection h with h
          exact ⟨ms.map (·.2), base, hsm, h.symm⟩
      · exact absurd h (by simp)
    · exact absurd h (by simp)

theorem processAcesData_ok_elim {aces : List Json} {out : List AceMember}
    (h : processAcesData aces = .ok out) :
    ∃ base, out = List.insertionSort aceRel base := by
  unfold processAcesData at h
  split at h
  · injection h with h
    exact ⟨[], by rw [← h]; rfl⟩
  · cases hb : aceMembersOf aces with
    | error e => rw [hb] at h; simp only [Except.map] at h; exact absurd h (by simp)
    | ok base =>
      rw [hb] at h
      simp only [Except.map] at h
      injection h with h
      exact ⟨base, h.symm⟩

/-- The mission-entry dict always carries exactly the ten fixed keys. -/
theorem buildMissionEntry_keys {gm : Json → PyDict} {serial : PyStr} {acc r : Json}
    {ke : PyStr × PyDict} {a2 : Json}
    (h : buildMissionEntry gm serial acc r = some (ke, a2)) :
    ke.2.map Prod.fst = ["date".toList, "time".toList, "aircraft".toList,
      "duty".toList, "locality".toList, "airfield".toList, "pilots".toList,
      "weather".toList, "description".toList, "haReport".toList] := by
  obtain ⟨ke1, ke2⟩ := ke
  cases r with
  | obj fs =>
    simp only [buildMissionEntry] at h
    injection h with h
    injection h with hp ha
    injection hp with hk he
    rw [← he]
    rfl
  | null => simp [buildMissionEntry] at h
  | bool b => simp [buildMissionEntry] at h
  | num n => simp [buildMissionEntry] at h
  | str s => simp [buildMissionEntry] at h
  | arr l => simp [buildMissionEntry] at h

theorem collectMissions_mem {gm : Json → PyDict} {serial : PyStr} :
    ∀ {reports : List Json} {acc : Json} {ke : PyStr × PyDict},
      ke ∈ (collectMissions gm serial acc reports).1 →
      ∃ acc2 r a2, buildMissionEntry gm serial acc2 r = some (ke, a2) := by
  intro reports
  induction reports with
  | nil => intro acc ke h; simp [collectMissions] at h
  | cons r rs ih =>
    intro acc ke h
    unfold collectMissions at h
    split at h
    · exact ih h
    · rename_i e acc2 heq
      split at h
      · rename_i es accF heq2
        simp at h
        rcases h with he | hm
        · exact ⟨acc, r, acc2, he ▸ heq⟩
        · exact ih (by rw [heq2]; exact hm)

theorem getCampaignAces_eq_spec (j : Json) : getCampaignAces j = specAcesShape j := by
  cases j with
  | null => rfl
  | bool b => cases b <;> rfl
  | num n =>
    unfold getCampaignAces specAcesShape
    split <;> rfl
  | str s =>
    unfold getCampaignAces specAcesShape
    split <;> rfl
  | arr l =>
    cases l with
    | nil => rfl
    | cons x xs => rfl
  | obj fs =>
    cases fs with
    | nil => rfl
    | cons kv fs' => rfl

/-! ## Claims -/

/-- C1: `JsonBatchRepository.load_many` over n paths returns a map sending
each path to its JSON payload or null, with stats in which `requested` = n
and `loaded` = the number of non-null payloads; for two loadable paths and
one missing path it reports requested=3, loaded=2.  (`get_json_many` is
modelled from the spec, see its doc comment.) -/
theorem claim_C1 :
    (∀ (loader : PyStr → Option Json) (paths : List PyStr),
        ((loadMany loader paths).2).requested = paths.length) ∧
    (∀ (loader : PyStr → Option Json) (paths : List PyStr),
        ((loadMany loader paths).2).loaded =
          ((loadMany loader paths).1).countP (fun kv => kv.2.isSome)) ∧
    (∀ (loader : PyStr → Option Json) (paths : List PyStr) (p : PyStr),
        p ∈ paths → dictLookup (loadMany loader paths).1 p = some (loader p)) ∧
    (loadMany (fun p => if p = "missing".toList then none else some Json.null)
        ["a".toList, "b".toList, "missing".toList]).2 = ⟨3, 2⟩ := by
  refine ⟨fun loader paths => rfl, fun loader paths => rfl, ?_, by decide⟩
  intro loader paths p hp
  have h := foldl_dictSet_lookup loader paths [] p
  rw [if_pos hp] at h
  exact h

/-- C1 witness: the batch map of the concrete three-path call sends path "a"
to its loaded payload. -/
theorem claim_C1_witness :
    dictLookup (loadMany (fun p => if p = "missing".toList then none else some Json.null)
      ["a".toList, "b".toList, "missing".toList]).1 "a".toList = some (some Json.null) :=
  claim_C1.2.2.1 _ _ _ (by decide)

/-- C2: contrary to the claim, a file whose bytes are valid Latin-1 (decoding
to valid JSON) but invalid UTF-8 makes `get_json_data` raise
`UnicodeDecodeError`: the first read attempt's `except` clauses name only
`json.JSONDecodeError` and the OS errors, so the `UnicodeDecodeError` escapes
`_load_json_file`; `get_json_data` catches it once (it is a `ValueError`) and
retries `_load_json_file` outside any handler, where it raises again.  The
Latin-1 fallback is unreachable for such files. -/
theorem claim_C2_code_eval (parse : List Char → Option Json) (bytes : List Nat)
    (v : Json) (hdec : utf8Decode bytes = none)
    (_hjson : parse (latin1Decode bytes) = some v) :
    getJsonData parse (.content bytes) = .error .unicodeDecodeError := by
  have hload : loadJsonFile parse (.content bytes) = .error .unicodeDecodeError := by
    simp only [loadJsonFile, hdec]
  simp only [getJsonData, hload]

/-- C2 witness: the concrete Latin-1 `{"a":"é"}` file raises even under a
parser that accepts every text. -/
theorem claim_C2_witness :
    getJsonData (fun _ => some Json.null) (.content latin1JsonBytes) =
      .error .unicodeDecodeError :=
  claim_C2_code_eval _ latin1JsonBytes Json.null (by decide) rfl

/-- C3 counterexample: a medal whose image is `croix.jpg` contributes the id
`croix.jpg` — the full filename, not the filename stem `croix` required by
the claim; only a `.png` suffix is ever stripped. -/
theorem claim_C3_counterexample :
    (resolvePersonnelFromPayloads
      [Json.obj [("squadronMemberCollection".toList, Json.obj [("p1".toList, Json.obj
        [("name".toList, .str "Ace Pilot".toList), ("country".toList, .str "fr".toList),
         ("medals".toList, .arr [.obj [("medalImage".toList, .str "croix.jpg".toList)]])])])]]
      "Ace Pilot".toList).earnedMedalIds = {"croix.jpg".toList} ∧
    fileStem "croix.jpg".toList = "croix".toList ∧
    ("croix.jpg".toList : PyStr) ≠ "croix".toList := by decide

/-- C3 (amended): on the first matching member the result carries the
member's country mapped through the canonicalization table ("fr" ↦
(FRANCE, France), unmapped ↦ GERMANY) and a medal-id set where a medal with
an image contributes the image filename with a case-insensitive `.png`
suffix stripped (other extensions kept whole), and a medal without an image
contributes the lower-cased space-to-underscore slug of its display name. -/
theorem claim_C3_amended :
    (∀ (payloads : List Json) (pilotName c nm : PyStr) (mj : Json)
        (rest : List (PyStr × PyStr × Json)),
        pyLower (pyStrip pilotName) ≠ [] →
        resolveManyMembers (pyLower (pyStrip pilotName)) payloads =
          .ok ((c, nm, mj) :: rest) →
        resolvePersonnelFromPayloads payloads pilotName =
          ⟨(mapCountryToFolderAndLabel c).1, (mapCountryToFolderAndLabel c).2,
           medalSetOfJson mj⟩) ∧
    mapCountryToFolderAndLabel "fr".toList = ("FRANCE".toList, "France".toList) ∧
    mapCountryToFolderAndLabel "ZZ".toList = ("GERMANY".toList, "Germany".toList) ∧
    medalSetOfJson (.arr [.obj [("medalImage".toList, .str "croix.png".toList)]]) =
      {"croix".toList} ∧
    medalSetOfJson (.arr [.obj [("medalName".toList, .str "Legion Honor".toList)]]) =
      {"legion_honor".toList} ∧
    resolvePersonnelFromPayloads
      [Json.obj [("squadronMemberCollection".toList, Json.obj [("p1".toList, Json.obj
        [("name".toList, .str "Ace Pilot".toList), ("country".toList, .str "fr".toList),
         ("medals".toList, .arr [.obj [("medalImage".toList, .str "croix.png".toList)],
                                 .obj [("medalName".toList, .str "Legion Honor".toList)]])])])]]
      "Ace Pilot".toList =
      ⟨"FRANCE".toList, "France".toList, {"croix".toList, "legion_honor".toList}⟩ := by
  refine ⟨?_, by decide, by decide, by decide, by decide, by decide⟩
  intro payloads pilotName c nm mj rest hn h
  simp only [resolvePersonnelFromPayloads]
  rw [if_neg (fun hh => hn (List.isEmpty_eq_true.mp hh)), h]

/-- C3 witness: a member with country "de" resolves to the GERMANY pair and
an empty medal set. -/
theorem claim_C3_witness :
    resolvePersonnelFromPayloads
      [Json.obj [("squadronMemberCollection".toList, Json.obj [("p".toList, Json.obj
        [("name".toList, .str "X".toList), ("country".toList, .str "de".toList)])])]]
      "X".toList =
      ⟨"GERMANY".toList, "Germany".toList, ∅⟩ :=
  claim_C3_amended.1 _ "X".toList "DE".toList "x".toList (Json.arr []) []
    (by decide) rfl

/-- C4: the rank-stripping patterns are raw strings with doubled backslashes
(`r'^(?:Lieutenant|…)\\.?\\s*'`, `r'\\s+'`), so the regex demands literal
backslashes after the rank: "Lieutenant Hans Schmidt" is returned unchanged —
against the claim, the docstring ("Remove patentes comuns") and the spec —
while a name that really holds backslashes does get stripped. -/
theorem claim_C4_code_eval :
    cleanPilotName "Lieutenant Hans Schmidt".toList = "Lieutenant Hans Schmidt".toList ∧
    cleanPilotName "Lt. Otto Braun".toList = "Lt. Otto Braun".toList ∧
    cleanPilotName "Ltn\\x\\ss Abc".toList = "Abc".toList := by decide

/-- C5 counterexample: with report date 19180101 the matcher uses the dashed
form 1918-01-01, which occurs in neither candidate filename, so Tier A
matches nothing on the claim's example — it is not the tier that selects the
file. -/
theorem claim_C5_counterexample :
    toDashedDate "19180101".toList = some "1918-01-01".toList ∧
    tierMatchA ["19180101_SchmidtA.json".toList, "19180101_Other.json".toList]
      (pyLower (cleanPilotName "Schmidt".toList)) (pyLower "1918-01-01".toList) = [] ∧
    ([] : List PyStr) ≠ ["19180101_SchmidtA.json".toList] := by decide

/-- C5 (amended): tiers run in order with the first non-empty tier winning —
Tier A (dashed date + pilot substring; date alone when the cleaned pilot
name is empty), Tier B (pilot substring, only for a non-empty pilot name),
Tier C (date substring); on the example candidates Tier A is empty (the
filenames contain the undashed date) and Tier B selects
"19180101_SchmidtA.json". -/
theorem claim_C5_amended :
    (∀ (cands : List PyStr) (pilot dateDashed : PyStr),
        tierMatchA cands (pyLower pilot) (pyLower dateDashed) ≠ [] →
        findMissionFileMatches cands pilot dateDashed =
          tierMatchA cands (pyLower pilot) (pyLower dateDashed)) ∧
    (∀ (cands : List PyStr) (pilot dateDashed : PyStr),
        tierMatchA cands (pyLower pilot) (pyLower dateDashed) = [] →
        pyLower pilot ≠ [] →
        tierMatchB cands (pyLower pilot) ≠ [] →
        findMissionFileMatches cands pilot dateDashed =
          tierMatchB cands (pyLower pilot)) ∧
    (∀ (cands : List PyStr) (pilot dateDashed : PyStr),
        tierMatchA cands (pyLower pilot) (pyLower dateDashed) = [] →
        (pyLower pilot = [] ∨ tierMatchB cands (pyLower pilot) = []) →
        tierMatchC cands (pyLower dateDashed) ≠ [] →
        findMissionFileMatches cands pilot dateDashed =
          tierMatchC cands (pyLower dateDashed)) ∧
    (toDashedDate "19180101".toList = some "1918-01-01".toList ∧
     cleanPilotName "Schmidt".toList = "Schmidt".toList ∧
     tierMatchA ["19180101_SchmidtA.json".toList, "19180101_Other.json".toList]
        "schmidt".toList "1918-01-01".toList = [] ∧
     tierMatchB ["19180101_SchmidtA.json".toList, "19180101_Other.json".toList]
        "schmidt".toList = ["19180101_SchmidtA.json".toList] ∧
     findMissionFileMatches ["19180101_SchmidtA.json".toList, "19180101_Other.json".toList]
        "Schmidt".toList "1918-01-01".toList = ["19180101_SchmidtA.json".toList]) := by
  refine ⟨?_, ?_, ?_, by decide⟩
  · intro cands pilot d h
    cases hA : tierMatchA cands (pyLower pilot) (pyLower d) with
    | nil => exact absurd hA h
    | cons x xs => simp [findMissionFileMatches, hA]
  · intro cands pilot d hA hp hB
    cases hB' : tierMatchB cands (pyLower pilot) with
    | nil => exact absurd hB' hB
    | cons x xs =>
      have hpe : (pyLower pilot).isEmpty = false := by
        cases hpp : pyLower pilot with
        | nil => exact absurd hpp hp
        | cons c cs => rfl
      simp [findMissionFileMatches, hA, hB', hpe]
  · intro cands pilot d hA hOr hC
    cases hC' : tierMatchC cands (pyLower d) with
    | nil => exact absurd hC' hC
    | cons x xs =>
      rcases hOr with hpe | hB0
      · have hpe' : (pyLower pilot).isEmpty = true := by rw [hpe]; rfl
        simp [findMissionFileMatches, hA, hC', hpe']
      · simp [findMissionFileMatches, hA, hB0, hC']

/-- C5 witness: at the example inputs, resolution returns the Tier B set. -/
theorem claim_C5_witness :
    findMissionFileMatches ["19180101_SchmidtA.json".toList, "19180101_Other.json".toList]
      "Schmidt".toList "1918-01-01".toList =
      tierMatchB ["19180101_SchmidtA.json".toList, "19180101_Other.json".toList]
        (pyLower "Schmidt".toList) :=
  claim_C5_amended.2.1 _ _ _ (by decide) (by decide) (by decide)

/-- C6: when tiers A, B and C are all empty, the resolver's selection equals
the set of candidates whose first embedded `\d{4}-\d{2}-\d{2}` match equals
the dashed date — and both sides are provably empty: such a candidate would
contain the dashed date and belong to tier C, while the source's tier-4
regex, written with doubled backslashes, can only match the literal text
`\dddd-\dd-\dd`, which no dashed date equals. -/
theorem claim_C6 (cands : List PyStr) (pilot dateDashed : PyStr)
    (hshape : isDashedDate10 dateDashed = true)
    (ha : tierMatchA cands (pyLower pilot) (pyLower dateDashed) = [])
    (hb : tierMatchB cands (pyLower pilot) = [])
    (hc : tierMatchC cands (pyLower dateDashed) = []) :
    findMissionFileMatches cands pilot dateDashed =
      cands.filter (fun f => firstDateMatch f == some dateDashed) := by
  rw [claimTierD_empty cands dateDashed hshape hc]
  obtain ⟨a0, t0, hdd, hdig⟩ := dashedDate_head dateDashed hshape
  have hne : (buggyDateLit == dateDashed) = false := by
    rw [beq_eq_false_iff_ne]
    intro heq
    rw [hdd] at heq
    injection heq with h1 h2
    rw [← h1] at hdig
    exact absurd hdig (by decide)
  simp [findMissionFileMatches, ha, hb, hc, tierMatchD, hne]

/-- C6 witness: a concrete candidate list on which all three earlier tiers
are empty. -/
theorem claim_C6_witness :
    findMissionFileMatches ["foo.json".toList] "x".toList "1918-01-01".toList =
      (["foo.json".toList]).filter
        (fun f => firstDateMatch f == some "1918-01-01".toList) :=
  claim_C6 _ _ _ (by decide) (by decide) (by decide) (by decide)

/-- C7 counterexample: a report whose non-empty date "0000abcd" is not a
valid YYYYMMDD string keeps its raw string as the sort key (the sentinel is
substituted only for empty dates) and its summary sorts first, not last. -/
theorem claim_C7_counterexample :
    (missionsKeyedSorted (fun _ => []) []
        [Json.obj [("date".toList, .str "19180101".toList)],
         Json.obj [("date".toList, .str "0000abcd".toList)]]).map (·.1) =
      ["0000abcd".toList, "19180101".toList] ∧
    isValidDateString "0000abcd".toList = false ∧
    ("0000abcd".toList : PyStr) ≠ "99999999".toList ∧
    ((processMissionsData (fun _ => []) []
        [Json.obj [("date".toList, .str "19180101".toList)],
         Json.obj [("date".toList, .str "0000abcd".toList)]]).1).map
      (fun e => pyStr ((jLookup e "date".toList).getD .null)) =
      ["0000abcd".toList, "01/01/1918".toList] := by decide

/-- C7 (amended): the aggregated mission list is sorted ascending (stably) by
the sort key — the report's raw date string, with the sentinel "99999999"
substituted only when the date is missing or empty.  Since 8-digit dates
precede the sentinel lexicographically, empty-dated reports sort after all
dated ones (19171231, 19180101, then the empty date); a non-empty
unparseable date is compared verbatim. -/
theorem claim_C7_amended :
    (∀ (gm : Json → PyDict) (serial : PyStr) (reports : List Json),
        (missionsKeyedSorted gm serial reports).Pairwise missionRel) ∧
    ((processMissionsData (fun _ => []) []
        [Json.obj [("date".toList, .str "19180101".toList)],
         Json.obj [("date".toList, .str [])],
         Json.obj [("date".toList, .str "19171231".toList)]]).1).map
      (fun e => pyStr ((jLookup e "date".toList).getD .null)) =
      ["31/12/1917".toList, "01/01/1918".toList, []] ∧
    (missionsKeyedSorted (fun _ => []) []
        [Json.obj [("date".toList, .str "19180101".toList)],
         Json.obj [("date".toList, .str [])],
         Json.obj [("date".toList, .str "19171231".toList)]]).map (·.1) =
      ["19171231".toList, "19180101".toList, "99999999".toList] := by
  refine ⟨?_, by decide, by decide⟩
  intro gm serial reports
  exact pairwiseInsertionSortOf missionRel missionRel_trans missionRel_total _

/-- C8 counterexample: a member with `missionFlown: -5` passes through the
`isinstance(int)` branch unchanged, producing a negative `missions_flown`;
a list-valued `missionFlown` normalizes to 0, not its length. -/
theorem claim_C8_counterexample :
    processSquadronData (.obj [("squadronMemberCollection".toList,
      .obj [("a".toList, .obj [("missionFlown".toList, .num (-5))])])]) =
      .ok [SquadronMember.mk (.str "NA".toList) (.str "NA".toList) 0 (-5)
        "Desconhecido".toList] ∧
    (-5 : Int) < 0 ∧
    normMissionFlown (.arr [.num 1, .num 2]) = 0 := ⟨rfl, by decide, rfl⟩

/-- C8 (amended): every produced member's `victories` is a non-negative
integer (a collection counts as its length, a digit string parses, anything
else is 0); `missionsFlown` passes ints through unchanged (negatives
included), parses digit strings, and defaults to 0 otherwise (lists
included); the status map sends 2 to "Morto em Combate (KIA)" and
unrecognized codes to "Desconhecido"; the roster is pairwise descending by
`(missionsFlown, victories)`. -/
theorem claim_C8_amended :
    (∀ (personnel : Json) (out : List SquadronMember),
        processSquadronData personnel = .ok out → ∀ m ∈ out, 0 ≤ m.victories) ∧
    (∀ (personnel : Json) (out : List SquadronMember),
        processSquadronData personnel = .ok out → out.Pairwise squadRel) ∧
    (∀ l : List Json, normVictories (.arr l) = l.length) ∧
    (∀ n : Int, normMissionFlown (.num n) = n) ∧
    (∀ l : List Json, normMissionFlown (.arr l) = 0) ∧
    statusOfCode 2 = "Morto em Combate (KIA)".toList ∧
    statusOfCode 999 = "Desconhecido".toList := by
  refine ⟨?_, ?_, fun l => rfl, fun n => rfl, fun l => rfl, by decide, by decide⟩
  · intro personnel out h m hm
    obtain ⟨ps, base, hsm, hout⟩ := processSquadronData_ok_elim h
    rw [hout] at hm
    obtain ⟨pf, hpf⟩ := squadMembersOf_mem hsm ((List.mem_insertionSort squadRel).mp hm)
    rw [hpf]
    exact normVictories_nonneg _
  · intro personnel out h
    obtain ⟨ps, base, hsm, hout⟩ := processSquadronData_ok_elim h
    rw [hout]
    exact pairwiseInsertionSortOf squadRel squadRel_trans squadRel_total base

/-- C8 witness: the concrete run's produced member has non-negative
victories. -/
theorem claim_C8_witness :
    (0 : Int) ≤ (SquadronMember.mk (.str "NA".toList) (.str "NA".toList) 0 (-5)
      "Desconhecido".toList).victories :=
  claim_C8_amended.1 (.obj [("squadronMemberCollection".toList,
      .obj [("a".toList, .obj [("missionFlown".toList, .num (-5))])])])
    [SquadronMember.mk (.str "NA".toList) (.str "NA".toList) 0 (-5)
      "Desconhecido".toList] rfl _ (List.Mem.head _)

/-- C9: the ace loader normalizes exactly the three legacy document shapes
(bare array; object with an "aces" array; object with an "acesInCampaign"
map whose values become the array) and yields the empty list for any other
shape; a successful aggregation is pairwise descending by the normalized
victory count, a victories list counting as its length — `[1,2,3]` sorts
before `[1]`. -/
theorem claim_C9 :
    (∀ j : Json, getCampaignAces j = specAcesShape j) ∧
    (∀ (aces : List Json) (out : List AceMember),
        processAcesData aces = .ok out → out.Pairwise aceRel) ∧
    (∀ l : List Json, aceVictories (.arr l) = l.length) ∧
    processAcesData [.obj [("victories".toList, .arr [.num 1, .num 2, .num 3])],
                     .obj [("victories".toList, .arr [.num 1])]] =
      .ok [AceMember.mk (.str "NA".toList) (.str "NA".toList) (.str []) 3 (.num 0),
           AceMember.mk (.str "NA".toList) (.str "NA".toList) (.str []) 1 (.num 0)] := by
  refine ⟨getCampaignAces_eq_spec, ?_, fun l => rfl, rfl⟩
  intro aces out h
  obtain ⟨base, hout⟩ := processAcesData_ok_elim h
  rw [hout]
  exact pairwiseInsertionSortOf aceRel aceRel_trans aceRel_total base

/-- C9 witness: the concrete two-ace run is pairwise descending. -/
theorem claim_C9_witness :
    List.Pairwise aceRel
      [AceMember.mk (.str "NA".toList) (.str "NA".toList) (.str []) 3 (.num 0),
       AceMember.mk (.str "NA".toList) (.str "NA".toList) (.str []) 1 (.num 0)] :=
  claim_C9.2.1 [.obj [("victories".toList, .arr [.num 1, .num 2, .num 3])],
                .obj [("victories".toList, .arr [.num 1])]] _ rfl

/-- C10: mission aggregation is a total function of the report list and the
mission-details payload (every exception path inside the per-report loop is
caught and replaced by a default), and every produced summary dict carries
exactly the keys date, time, aircraft, duty, locality, airfield, pilots,
weather, description, haReport; an empty report with no mission details
yields the all-default entry. -/
theorem claim_C10 :
    (∀ (gm : Json → PyDict) (serial : PyStr) (reports : List Json) (e : PyDict),
        e ∈ (processMissionsData gm serial reports).1 →
        e.map Prod.fst = ["date".toList, "time".toList, "aircraft".toList,
          "duty".toList, "locality".toList, "airfield".toList, "pilots".toList,
          "weather".toList, "description".toList, "haReport".toList]) ∧
    processMissionsData (fun _ => []) [] [Json.obj []] =
      ([[("date".toList, .str "NA".toList), ("time".toList, .str "NA".toList),
         ("aircraft".toList, .str "NA".toList), ("duty".toList, .str "NA".toList),
         ("locality".toList, .str "NA".toList), ("airfield".toList, .str "NA".toList),
         ("pilots".toList, .arr []), ("weather".toList, .str weatherDefault),
         ("description".toList, .str descNotFound), ("haReport".toList, .str [])]],
       Json.null) := by
  refine ⟨?_, rfl⟩
  intro gm serial reports e he
  simp only [processMissionsData, missionsKeyedSorted] at he
  obtain ⟨ke, hke, hsnd⟩ := List.mem_map.mp he
  obtain ⟨acc2, r, a2, hb⟩ :=
    collectMissions_mem ((List.mem_insertionSort missionRel).mp hke)
  rw [← hsnd]
  exact buildMissionEntry_keys hb

/-- C10 witness: the all-default entry of the concrete run carries exactly
the ten keys. -/
theorem claim_C10_witness :
    ([("date".toList, Json.str "NA".toList), ("time".toList, Json.str "NA".toList),
      ("aircraft".toList, Json.str "NA".toList), ("duty".toList, Json.str "NA".toList),
      ("locality".toList, Json.str "NA".toList), ("airfield".toList, Json.str "NA".toList),
      ("pilots".toList, Json.arr []), ("weather".toList, Json.str weatherDefault),
      ("description".toList, Json.str descNotFound), ("haReport".toList, Json.str [])] :
        PyDict).map Prod.fst =
      ["date".toList, "time".toList, "aircraft".toList, "duty".toList,
       "locality".toList, "airfield".toList, "pilots".toList, "weather".toList,
       "description".toList, "haReport".toList] :=
  claim_C10.1 (fun _ => []) [] [Json.obj []] _ (List.Mem.head _)
